import Mathlib

/-!
Verification of the client ticket cache (v8/client/cache.go) of gokrb5.

Modelling conventions:
  - a Go string is its byte sequence, modelled as a list of bytes (Fin 256);
  - time.Time values are modelled as integers; time.Time.After and Before are
    the strict orders on those integers, and a single value now stands for the
    clock readings of one GetCachedTicket call;
  - types.PrincipalName values are represented by their rendered string form
    (the result of PrincipalNameString, which lies outside the excerpt), since
    the cache only ever consumes principal names through that rendering;
  - the external collaborator cl.TGSREQGenerateAndExchange is a parameter: it
    either fails with an error code or succeeds, returning the cache state it
    has produced by writing entries back as a side effect; results carry an
    explicit count of how many times it was invoked;
  - the Go map Entries is an association list from composite key to entry
    (a Go map is exactly an unordered finite table with unique keys).
-/

namespace GoKrb5

/-- A Go byte. -/
abbrev Byte := Fin 256

/-- A Go string, modelled as its byte sequence. -/
abbrev GoStr := List Byte

namespace types

/-- types.EncryptionKey: KeyType int32 and KeyValue []byte. -/
structure EncryptionKey where
  KeyType : Int
  KeyValue : List Byte
deriving DecidableEq

end types

namespace messages

/-- messages.Ticket, restricted to the fields the cache reads: the realm, the
service principal name (in its string rendering) and the opaque encrypted
part standing for the rest of the ticket payload. -/
structure Ticket where
  TktVNO : Int
  Realm : GoStr
  SName : GoStr
  EncPart : List Byte
deriving DecidableEq

end messages

/-- The standard base64 alphabet used by encoding/base64 StdEncoding. -/
def b64alphabet : List Char :=
  ['A', 'B', 'C', 'D', 'E', 'F', 'G', 'H', 'I', 'J', 'K', 'L', 'M',
   'N', 'O', 'P', 'Q', 'R', 'S', 'T', 'U', 'V', 'W', 'X', 'Y', 'Z',
   'a', 'b', 'c', 'd', 'e', 'f', 'g', 'h', 'i', 'j', 'k', 'l', 'm',
   'n', 'o', 'p', 'q', 'r', 's', 't', 'u', 'v', 'w', 'x', 'y', 'z',
   '0', '1', '2', '3', '4', '5', '6', '7', '8', '9', '+', '/']

/-- The alphabet character for a 6-bit group. -/
def b64char (n : Nat) : Char := b64alphabet.getD n '='

/-- base64.StdEncoding.EncodeToString: 3-byte groups become 4 alphabet
characters; a final group of 1 or 2 bytes is padded with the = character. -/
def b64encode : List Byte → List Char
  | [] => []
  | [b1] => [b64char (b1.val / 4), b64char (b1.val % 4 * 16), '=', '=']
  | [b1, b2] =>
      [b64char (b1.val / 4), b64char (b1.val % 4 * 16 + b2.val / 16),
       b64char (b2.val % 16 * 4), '=']
  | b1 :: b2 :: b3 :: rest =>
      b64char (b1.val / 4) :: b64char (b1.val % 4 * 16 + b2.val / 16) ::
      b64char (b2.val % 16 * 4 + b3.val / 64) :: b64char (b3.val % 64) ::
      b64encode rest

/-- Position of a character in the base64 alphabet (64 when absent). -/
def b64pos (c : Char) : Nat := b64alphabet.findIdx (fun x => x == c)

/-- Inverse of b64encode, used to establish that the encoding is injective. -/
def b64decode : List Char → List Byte
  | c1 :: c2 :: c3 :: c4 :: rest =>
      let n1 := b64pos c1
      let n2 := b64pos c2
      if c3 = '=' then
        [⟨(n1 * 4 + n2 / 16) % 256, by omega⟩]
      else
        let n3 := b64pos c3
        if c4 = '=' then
          [⟨(n1 * 4 + n2 / 16) % 256, by omega⟩,
           ⟨(n2 % 16 * 16 + n3 / 4) % 256, by omega⟩]
        else
          ⟨(n1 * 4 + n2 / 16) % 256, by omega⟩ ::
          ⟨(n2 % 16 * 16 + n3 / 4) % 256, by omega⟩ ::
          ⟨(n3 % 4 * 64 + b64pos c4) % 256, by omega⟩ ::
          b64decode rest
  | _ => []

/-- key builds the composite cache key: base64 of cname, the separator
character, then base64 of spn (cache.go lines 21-24). -/
def key (cname spn : GoStr) : List Char :=
  b64encode cname ++ ':' :: b64encode spn

/-- CacheEntry holds details for a cache entry (cache.go lines 27-36).
CName is the string rendering of the types.PrincipalName field. -/
structure CacheEntry where
  CName : GoStr
  SPN : GoStr
  Ticket : messages.Ticket
  AuthTime : Int
  StartTime : Int
  EndTime : Int
  RenewTill : Int
  SessionKey : types.EncryptionKey
deriving DecidableEq

/-- Cache for service tickets held by the client: the Entries map, as an
association list from composite key to entry with unique keys. -/
structure Cache where
  Entries : List (List Char × CacheEntry)
deriving DecidableEq

/-- Go map read: the value stored under an exactly matching key, if any. -/
def mapGet (k : List Char) : List (List Char × CacheEntry) → Option CacheEntry
  | [] => none
  | p :: rest => if k = p.1 then some p.2 else mapGet k rest

/-- getEntry returns a cache entry that matches the SPN (cache.go 46-51). -/
def Cache.getEntry (c : Cache) (cname spn : GoStr) : Option CacheEntry :=
  mapGet (key cname spn) c.Entries

/-- The Go zero value of messages.Ticket. -/
def zeroTicket : messages.Ticket := ⟨0, [], [], []⟩

/-- The Go zero value of types.EncryptionKey. -/
def zeroEncKey : types.EncryptionKey := ⟨0, []⟩

/-- The Go zero value of CacheEntry. -/
def zeroEntry : CacheEntry := ⟨[], [], zeroTicket, 0, 0, 0, 0, zeroEncKey⟩

/-- Errors the renewal path can produce: an error coming back from the
external exchange, or the distinct error value built by errors.New with the
message that the ticket was not added to the cache (cache.go line 140).
Go's errors.New always yields a value distinct from every other error, which
the two constructors reflect. -/
inductive RenewError where
  | exchange (code : Nat)
  | notAddedToCache
deriving DecidableEq

/-- Model of cl.TGSREQGenerateAndExchange as the cache observes it: the
arguments renewTicket passes (service principal, realm, current ticket and
session key) plus the cache state; it either fails with an error code or
succeeds, returning the cache state after its write-back side effect. -/
def ExchangeFn : Type :=
  GoStr → GoStr → messages.Ticket → types.EncryptionKey → Cache → Except Nat Cache

/-- Result of renewTicket: the returned entry and error, the cache state
afterwards, and how many exchange calls were made. -/
structure RenewResult where
  entry : CacheEntry
  err : Option RenewError
  cache : Cache
  exchangeCalls : Nat
deriving DecidableEq

/-- renewTicket renews a cache entry ticket (cache.go lines 131-144): it
invokes the exchange once; on exchange failure it returns the stale entry
and the error; on success it re-reads the cache for the entry's own identity
pair, returning the refreshed entry, or the zero entry together with the
ticket-was-not-added-to-cache error when the lookup finds nothing. -/
def renewTicket (exch : ExchangeFn) (cl : Cache) (e : CacheEntry) : RenewResult :=
  match exch e.Ticket.SName e.Ticket.Realm e.Ticket e.SessionKey cl with
  | Except.error code => ⟨e, some (RenewError.exchange code), cl, 1⟩
  | Except.ok cl2 =>
      match cl2.getEntry e.CName e.Ticket.SName with
      | none => ⟨zeroEntry, some RenewError.notAddedToCache, cl2, 1⟩
      | some e2 => ⟨e2, none, cl2, 1⟩

/-- Result of GetCachedTicket: the returned ticket, session key and boolean,
plus the cache state afterwards and the number of exchange calls made. -/
structure ResolveResult where
  Ticket : messages.Ticket
  SessionKey : types.EncryptionKey
  usable : Bool
  cache : Cache
  exchangeCalls : Nat
deriving DecidableEq

/-- The renewal branch of GetCachedTicket (cache.go lines 117-121): call
renewTicket; on error return the entry renewTicket gave back with false,
otherwise return the refreshed entry with true. -/
def renewRespond (exch : ExchangeFn) (cl : Cache) (e : CacheEntry) : ResolveResult :=
  let r := renewTicket exch cl e
  match r.err with
  | some _ => ⟨r.entry.Ticket, r.entry.SessionKey, false, r.cache, r.exchangeCalls⟩
  | none => ⟨r.entry.Ticket, r.entry.SessionKey, true, r.cache, r.exchangeCalls⟩

/-- GetCachedTicket returns a ticket from the cache for the SPN (cache.go
lines 110-127): return the entry directly when now lies strictly inside the
validity window; renew when now is strictly before RenewTill; otherwise, and
when no entry exists, return zero values and false. -/
def GetCachedTicket (exch : ExchangeFn) (cl : Cache) (cname spn : GoStr)
    (now : Int) : ResolveResult :=
  match cl.getEntry cname spn with
  | some e =>
      if e.StartTime < now ∧ now < e.EndTime then
        ⟨e.Ticket, e.SessionKey, true, cl, 0⟩
      else if now < e.RenewTill then
        renewRespond exch cl e
      else
        ⟨zeroTicket, zeroEncKey, false, cl, 0⟩
  | none => ⟨zeroTicket, zeroEncKey, false, cl, 0⟩

/-- The JSON rendering of one cache entry: the fields encoding/json emits.
Ticket and SessionKey carry the struct tag that excludes a field from JSON
(cache.go lines 30 and 35), so they do not appear. -/
structure EntryJSON where
  CName : GoStr
  SPN : GoStr
  AuthTime : Int
  StartTime : Int
  EndTime : Int
  RenewTill : Int
deriving DecidableEq

/-- The JSON object serialized for a cache entry. -/
def entryJSON (e : CacheEntry) : EntryJSON :=
  ⟨e.CName, e.SPN, e.AuthTime, e.StartTime, e.EndTime, e.RenewTill⟩

/-- The key list of the Entries map sorted ascending, as sort.Strings does
(byte-wise lexicographic order; the keys are ASCII, so the lexicographic
order on their character lists coincides with Go's byte order). -/
def Cache.sortedKeys (c : Cache) : List (List Char) :=
  (c.Entries.map Prod.fst).insertionSort (fun a b => a ≤ b)

/-- JSON returns information about the cached service tickets (cache.go
lines 54-71): entries listed in ascending key order, each rendered without
its Ticket and SessionKey fields.  The serialized string is a function of
this list, so equal lists give byte-identical output. -/
def Cache.JSON (c : Cache) : List EntryJSON :=
  c.sortedKeys.map (fun k => entryJSON ((mapGet k c.Entries).getD zeroEntry))

/-- Two entries agreeing on every field other than Ticket and SessionKey. -/
def agreeExceptSecrets (e1 e2 : CacheEntry) : Prop :=
  e1.CName = e2.CName ∧ e1.SPN = e2.SPN ∧ e1.AuthTime = e2.AuthTime ∧
  e1.StartTime = e2.StartTime ∧ e1.EndTime = e2.EndTime ∧ e1.RenewTill = e2.RenewTill

/-! Concrete fixtures used to instantiate the theorems below. -/

/-- A concrete client principal string. -/
def wCName : GoStr := [65]

/-- A concrete service principal string. -/
def wSPN : GoStr := [66, 47, 67]

/-- A concrete ticket naming wSPN. -/
def wTicket : messages.Ticket := ⟨5, [82], wSPN, [1, 2, 3]⟩

/-- A concrete session key. -/
def wEncKey : types.EncryptionKey := ⟨18, [9, 9]⟩

/-- A concrete cache entry with validity window (0, 10) and RenewTill 20. -/
def wEntry : CacheEntry := ⟨wCName, wSPN, wTicket, 0, 0, 10, 20, wEncKey⟩

/-- A one-entry cache holding wEntry. -/
def wCache : Cache := ⟨[(key wCName wSPN, wEntry)]⟩

/-- An exchange stub that always fails with error code 7. -/
def wExchFail : ExchangeFn := fun _ _ _ _ _ => Except.error 7

/-- A refreshed ticket for the same service. -/
def wTicket2 : messages.Ticket := ⟨5, [82], wSPN, [4, 5, 6]⟩

/-- A refreshed session key. -/
def wEncKey2 : types.EncryptionKey := ⟨18, [8, 8]⟩

/-- The refreshed cache entry with a later validity window. -/
def wEntry2 : CacheEntry := ⟨wCName, wSPN, wTicket2, 12, 12, 30, 40, wEncKey2⟩

/-- The cache state after a successful renewal wrote wEntry2 back. -/
def wCache2 : Cache := ⟨[(key wCName wSPN, wEntry2)]⟩

/-- An exchange stub that succeeds and leaves the cache holding wEntry2. -/
def wExchOk : ExchangeFn := fun _ _ _ _ _ => Except.ok wCache2

/-- An empty cache. -/
def wCacheGone : Cache := ⟨[]⟩

/-- An exchange stub that reports success but persists nothing. -/
def wExchEmpty : ExchangeFn := fun _ _ _ _ _ => Except.ok wCacheGone

/-! Helper lemmas shared by the theorems below. -/

/-- renewTicket performs exactly one exchange call on every path. -/
theorem renewTicket_exchangeCalls (exch : ExchangeFn) (cl : Cache) (e : CacheEntry) :
    (renewTicket exch cl e).exchangeCalls = 1 := by
  cases hx : exch e.Ticket.SName e.Ticket.Realm e.Ticket e.SessionKey cl with
  | error code => simp [renewTicket, hx]
  | ok cl2 =>
      cases hg : cl2.getEntry e.CName e.Ticket.SName <;> simp [renewTicket, hx, hg]

/-- The renewal branch of GetCachedTicket makes exactly one exchange call. -/
theorem renewRespond_exchangeCalls (exch : ExchangeFn) (cl : Cache) (e : CacheEntry) :
    (renewRespond exch cl e).exchangeCalls = 1 := by
  unfold renewRespond
  cases he : (renewTicket exch cl e).err <;>
    simp [he, renewTicket_exchangeCalls exch cl e]

/-! Theorems for the claims about the orchestrator. -/

/-- C2: for every cached entry and every now strictly after the entry's
StartTime and strictly before its EndTime, GetCachedTicket returns that
entry's Ticket and SessionKey with usable true, leaves the cache unchanged
and makes no call to the external exchange. -/
theorem GetCachedTicket_valid_window (exch : ExchangeFn) (cl : Cache)
    (cname spn : GoStr) (now : Int) (e : CacheEntry)
    (he : cl.getEntry cname spn = some e)
    (h1 : e.StartTime < now) (h2 : now < e.EndTime) :
    GetCachedTicket exch cl cname spn now = ⟨e.Ticket, e.SessionKey, true, cl, 0⟩ := by
  unfold GetCachedTicket
  rw [he]
  simp [h1, h2]

/-- Witness for C2 at a concrete cache, entry and time. -/
theorem GetCachedTicket_valid_window_witness :
    GetCachedTicket wExchFail wCache wCName wSPN 5 =
      ⟨wEntry.Ticket, wEntry.SessionKey, true, wCache, 0⟩ :=
  GetCachedTicket_valid_window wExchFail wCache wCName wSPN 5 wEntry
    (by decide) (by decide) (by decide)

/-- C5: for an entry with StartTime le EndTime le RenewTill and now at or
past RenewTill, GetCachedTicket returns the zero ticket and zero key with
usable false and no exchange call; the same holds when the pair is absent. -/
theorem GetCachedTicket_unusable (exch : ExchangeFn) (cl : Cache)
    (cname spn : GoStr) (now : Int) :
    (∀ e : CacheEntry, cl.getEntry cname spn = some e →
        e.StartTime ≤ e.EndTime → e.EndTime ≤ e.RenewTill → e.RenewTill ≤ now →
        GetCachedTicket exch cl cname spn now =
          ⟨zeroTicket, zeroEncKey, false, cl, 0⟩) ∧
    (cl.getEntry cname spn = none →
        GetCachedTicket exch cl cname spn now =
          ⟨zeroTicket, zeroEncKey, false, cl, 0⟩) := by
  constructor
  · intro e he h1 h2 h3
    have hA : ¬ (e.StartTime < now ∧ now < e.EndTime) := by omega
    have hB : ¬ (now < e.RenewTill) := by omega
    unfold GetCachedTicket
    rw [he]
    simp [hA, hB]
  · intro he
    unfold GetCachedTicket
    rw [he]

/-- Witness for C5: a concrete exhausted entry and a concrete absent pair. -/
theorem GetCachedTicket_unusable_witness :
    GetCachedTicket wExchFail wCache wCName wSPN 25 =
      ⟨zeroTicket, zeroEncKey, false, wCache, 0⟩ ∧
    GetCachedTicket wExchFail wCacheGone wCName wSPN 25 =
      ⟨zeroTicket, zeroEncKey, false, wCacheGone, 0⟩ :=
  ⟨(GetCachedTicket_unusable wExchFail wCache wCName wSPN 25).1 wEntry
      (by decide) (by decide) (by decide) (by decide),
   (GetCachedTicket_unusable wExchFail wCacheGone wCName wSPN 25).2 (by decide)⟩

/-- C3: when now lies outside the open validity window but strictly before
RenewTill and the exchange fails, GetCachedTicket returns the stale entry's
own Ticket and SessionKey together with usable false. -/
theorem GetCachedTicket_exchange_failure_stale (exch : ExchangeFn) (cl : Cache)
    (cname spn : GoStr) (now : Int) (e : CacheEntry) (code : Nat)
    (he : cl.getEntry cname spn = some e)
    (hout : ¬ (e.StartTime < now ∧ now < e.EndTime))
    (h2 : now < e.RenewTill)
    (hexch : exch e.Ticket.SName e.Ticket.Realm e.Ticket e.SessionKey cl =
      Except.error code) :
    GetCachedTicket exch cl cname spn now = ⟨e.Ticket, e.SessionKey, false, cl, 1⟩ := by
  have hrt : renewTicket exch cl e = ⟨e, some (RenewError.exchange code), cl, 1⟩ := by
    unfold renewTicket
    rw [hexch]
  unfold GetCachedTicket renewRespond
  rw [he]
  simp [hout, h2, hrt]

/-- Witness for C3 at a concrete expired entry with a failing exchange. -/
theorem GetCachedTicket_exchange_failure_stale_witness :
    GetCachedTicket wExchFail wCache wCName wSPN 15 =
      ⟨wEntry.Ticket, wEntry.SessionKey, false, wCache, 1⟩ :=
  GetCachedTicket_exchange_failure_stale wExchFail wCache wCName wSPN 15 wEntry 7
    (by decide) (by decide) (by decide) rfl

/-- C1: for an entry with EndTime lt now lt RenewTill, GetCachedTicket makes
exactly one exchange call, and when that exchange succeeds and the cache then
holds a refreshed entry for the same identity pair, it returns the refreshed
entry's Ticket and SessionKey with usable true. -/
theorem GetCachedTicket_renewal_success (exch : ExchangeFn) (cl cl2 : Cache)
    (cname spn : GoStr) (now : Int) (e e2 : CacheEntry)
    (he : cl.getEntry cname spn = some e)
    (hc : e.CName = cname) (hs : e.Ticket.SName = spn)
    (h1 : e.EndTime < now) (h2 : now < e.RenewTill)
    (hexch : exch e.Ticket.SName e.Ticket.Realm e.Ticket e.SessionKey cl =
      Except.ok cl2)
    (hfound : cl2.getEntry cname spn = some e2) :
    GetCachedTicket exch cl cname spn now = ⟨e2.Ticket, e2.SessionKey, true, cl2, 1⟩ := by
  have hA : ¬ (e.StartTime < now ∧ now < e.EndTime) := by omega
  have hrt : renewTicket exch cl e = ⟨e2, none, cl2, 1⟩ := by
    unfold renewTicket
    rw [hexch]
    simp only [hc, hs, hfound]
  unfold GetCachedTicket renewRespond
  rw [he]
  simp [hA, h2, hrt]

/-- Witness for C1 at a concrete expired entry with a succeeding exchange. -/
theorem GetCachedTicket_renewal_success_witness :
    GetCachedTicket wExchOk wCache wCName wSPN 15 =
      ⟨wEntry2.Ticket, wEntry2.SessionKey, true, wCache2, 1⟩ :=
  GetCachedTicket_renewal_success wExchOk wCache wCache2 wCName wSPN 15 wEntry wEntry2
    (by decide) rfl rfl (by decide) (by decide) rfl (by decide)

/-- C4: when the exchange reports success but the post-renewal lookup finds
no entry, renewTicket returns the distinct ticket-was-not-added-to-cache
error; every exchange failure surfaces as an exchange-tagged error, and the
consistency-violation error is never equal to any exchange-tagged error. -/
theorem renewTicket_missing_entry_error (exch : ExchangeFn) (cl cl2 : Cache)
    (e : CacheEntry)
    (hexch : exch e.Ticket.SName e.Ticket.Realm e.Ticket e.SessionKey cl =
      Except.ok cl2)
    (hmiss : cl2.getEntry e.CName e.Ticket.SName = none) :
    (renewTicket exch cl e).err = some RenewError.notAddedToCache ∧
    (∀ (exch2 : ExchangeFn) (cl3 : Cache) (e3 : CacheEntry) (code : Nat),
        exch2 e3.Ticket.SName e3.Ticket.Realm e3.Ticket e3.SessionKey cl3 =
          Except.error code →
        (renewTicket exch2 cl3 e3).err = some (RenewError.exchange code)) ∧
    (∀ code : Nat, RenewError.notAddedToCache ≠ RenewError.exchange code) := by
  refine ⟨?_, ?_, ?_⟩
  · unfold renewTicket
    rw [hexch]
    simp only [hmiss]
  · intro exch2 cl3 e3 code hfail
    unfold renewTicket
    rw [hfail]
  · intro code h
    cases h

/-- Witness for C4: an exchange stub that succeeds but persists nothing. -/
theorem renewTicket_missing_entry_error_witness :
    (renewTicket wExchEmpty wCache wEntry).err = some RenewError.notAddedToCache :=
  (renewTicket_missing_entry_error wExchEmpty wCache wCacheGone wEntry rfl
    (by decide)).1

/-- C10: for a cached entry whose window has not started (now at or before
StartTime) with now strictly before RenewTill, GetCachedTicket neither
returns the entry directly nor reports absence: it takes the renewal branch,
making exactly one exchange call. -/
theorem GetCachedTicket_not_yet_valid_renews (exch : ExchangeFn) (cl : Cache)
    (cname spn : GoStr) (now : Int) (e : CacheEntry)
    (he : cl.getEntry cname spn = some e)
    (h1 : now ≤ e.StartTime) (h2 : now < e.RenewTill) :
    GetCachedTicket exch cl cname spn now = renewRespond exch cl e ∧
    (GetCachedTicket exch cl cname spn now).exchangeCalls = 1 := by
  have hA : ¬ (e.StartTime < now ∧ now < e.EndTime) := by omega
  have hmain : GetCachedTicket exch cl cname spn now = renewRespond exch cl e := by
    unfold GetCachedTicket
    rw [he]
    simp [hA, h2]
  exact ⟨hmain, by rw [hmain]; exact renewRespond_exchangeCalls exch cl e⟩

/-- Witness for C10 at a concrete not-yet-valid time. -/
theorem GetCachedTicket_not_yet_valid_renews_witness :
    GetCachedTicket wExchFail wCache wCName wSPN (-3) =
      renewRespond wExchFail wCache wEntry ∧
    (GetCachedTicket wExchFail wCache wCName wSPN (-3)).exchangeCalls = 1 :=
  GetCachedTicket_not_yet_valid_renews wExchFail wCache wCName wSPN (-3) wEntry
    (by decide) (by decide) (by decide)

/-- C9 counterexample: wEntry has StartTime 0, EndTime 10, so 0 lies in the
half-open window the claim asserts; yet at now equal to StartTime the code
does not return the cached ticket directly with usable true and no exchange
call - it renews, which here fails, giving usable false and one call. -/
theorem GetCachedTicket_at_start_counterexample :
    ¬ (GetCachedTicket wExchFail wCache wCName wSPN 0 =
        ⟨wEntry.Ticket, wEntry.SessionKey, true, wCache, 0⟩) := by
  decide

/-- C9 amended: the validity window is the open interval from StartTime to
EndTime: at now exactly equal to StartTime (with StartTime strictly before
RenewTill), GetCachedTicket does not return the entry directly but takes the
renewal branch, making exactly one exchange call. -/
theorem GetCachedTicket_at_start_time (exch : ExchangeFn) (cl : Cache)
    (cname spn : GoStr) (e : CacheEntry)
    (he : cl.getEntry cname spn = some e)
    (h2 : e.StartTime < e.RenewTill) :
    GetCachedTicket exch cl cname spn e.StartTime = renewRespond exch cl e ∧
    (GetCachedTicket exch cl cname spn e.StartTime).exchangeCalls = 1 := by
  have hA : ¬ (e.StartTime < e.StartTime ∧ e.StartTime < e.EndTime) := by omega
  have hmain : GetCachedTicket exch cl cname spn e.StartTime = renewRespond exch cl e := by
    unfold GetCachedTicket
    rw [he]
    simp [hA, h2]
  exact ⟨hmain, by rw [hmain]; exact renewRespond_exchangeCalls exch cl e⟩

/-- Witness for the amended C9 at the concrete entry wEntry. -/
theorem GetCachedTicket_at_start_time_witness :
    GetCachedTicket wExchFail wCache wCName wSPN wEntry.StartTime =
      renewRespond wExchFail wCache wEntry ∧
    (GetCachedTicket wExchFail wCache wCName wSPN wEntry.StartTime).exchangeCalls = 1 :=
  GetCachedTicket_at_start_time wExchFail wCache wCName wSPN wEntry
    (by decide) (by decide)

/-! Injectivity of the composite key (claim about the KeyEncoder). -/

/-- Looking an alphabet character back up recovers its 6-bit value. -/
theorem b64pos_b64char : ∀ n : Fin 64, b64pos (b64char n.val) = n.val := by decide

/-- Version of b64pos_b64char phrased with a bound hypothesis on a Nat. -/
theorem b64pos_b64char_of_lt {n : Nat} (h : n < 64) : b64pos (b64char n) = n :=
  b64pos_b64char ⟨n, h⟩

/-- No alphabet character is the padding character. -/
theorem b64char_ne_pad : ∀ n : Fin 64, b64char n.val ≠ '=' := by decide

/-- Version of b64char_ne_pad phrased with a bound hypothesis on a Nat. -/
theorem b64char_ne_pad_of_lt {n : Nat} (h : n < 64) : b64char n ≠ '=' :=
  b64char_ne_pad ⟨n, h⟩

/-- No alphabet character, within range. -/
theorem b64char_ne_colon_lt : ∀ n : Fin 64, b64char n.val ≠ ':' := by decide

/-- The output of b64char is never the separator character. -/
theorem b64char_ne_colon (n : Nat) : b64char n ≠ ':' := by
  by_cases h : n < 64
  · exact b64char_ne_colon_lt ⟨n, h⟩
  · unfold b64char
    have hlen : b64alphabet.length = 64 := by decide
    rw [List.getD_eq_default]
    · decide
    · omega

/-- Induction principle following the 3-byte grouping of b64encode. -/
def byteChunks (P : List Byte → Prop) (h0 : P []) (h1 : ∀ b, P [b])
    (h2 : ∀ b c, P [b, c])
    (h3 : ∀ b c d rest, P rest → P (b :: c :: d :: rest)) :
    ∀ s, P s
  | [] => h0
  | [b] => h1 b
  | [b, c] => h2 b c
  | b :: c :: d :: rest => h3 b c d rest (byteChunks P h0 h1 h2 h3 rest)

/-- Decoding inverts encoding, so base64 encoding loses no information. -/
theorem b64decode_encode : ∀ s : List Byte, b64decode (b64encode s) = s := by
  refine byteChunks _ ?_ ?_ ?_ ?_
  · rfl
  · intro b
    have hb := b.isLt
    have e1 : b64pos (b64char (b.val / 4)) = b.val / 4 :=
      b64pos_b64char_of_lt (by omega)
    have e2 : b64pos (b64char (b.val % 4 * 16)) = b.val % 4 * 16 :=
      b64pos_b64char_of_lt (by omega)
    show b64decode [b64char (b.val / 4), b64char (b.val % 4 * 16), '=', '='] = [b]
    simp [b64decode, e1, e2, Fin.ext_iff]
    omega
  · intro b c
    have hb := b.isLt
    have hc := c.isLt
    have e1 : b64pos (b64char (b.val / 4)) = b.val / 4 :=
      b64pos_b64char_of_lt (by omega)
    have e2 : b64pos (b64char (b.val % 4 * 16 + c.val / 16)) =
        b.val % 4 * 16 + c.val / 16 := b64pos_b64char_of_lt (by omega)
    have e3 : b64pos (b64char (c.val % 16 * 4)) = c.val % 16 * 4 :=
      b64pos_b64char_of_lt (by omega)
    have ne3 : b64char (c.val % 16 * 4) ≠ '=' := b64char_ne_pad_of_lt (by omega)
    show b64decode [b64char (b.val / 4), b64char (b.val % 4 * 16 + c.val / 16),
        b64char (c.val % 16 * 4), '='] = [b, c]
    simp [b64decode, e1, e2, e3, ne3, Fin.ext_iff]
    omega
  · intro b c d rest ih
    have hb := b.isLt
    have hc := c.isLt
    have hd := d.isLt
    have e1 : b64pos (b64char (b.val / 4)) = b.val / 4 :=
      b64pos_b64char_of_lt (by omega)
    have e2 : b64pos (b64char (b.val % 4 * 16 + c.val / 16)) =
        b.val % 4 * 16 + c.val / 16 := b64pos_b64char_of_lt (by omega)
    have e3 : b64pos (b64char (c.val % 16 * 4 + d.val / 64)) =
        c.val % 16 * 4 + d.val / 64 := b64pos_b64char_of_lt (by omega)
    have e4 : b64pos (b64char (d.val % 64)) = d.val % 64 :=
      b64pos_b64char_of_lt (by omega)
    have ne3 : b64char (c.val % 16 * 4 + d.val / 64) ≠ '=' :=
      b64char_ne_pad_of_lt (by omega)
    have ne4 : b64char (d.val % 64) ≠ '=' := b64char_ne_pad_of_lt (by omega)
    show b64decode (b64char (b.val / 4) :: b64char (b.val % 4 * 16 + c.val / 16) ::
        b64char (c.val % 16 * 4 + d.val / 64) :: b64char (d.val % 64) ::
        b64encode rest) = b :: c :: d :: rest
    simp [b64decode, e1, e2, e3, e4, ne3, ne4, ih, Fin.ext_iff]
    omega

/-- base64 encoding is injective. -/
theorem b64encode_injective {s t : List Byte} (h : b64encode s = b64encode t) :
    s = t := by
  have hs := b64decode_encode s
  have ht := b64decode_encode t
  rw [h] at hs
  rw [hs] at ht
  exact ht

/-- The separator character never occurs in a base64 encoding. -/
theorem b64encode_no_colon : ∀ s : List Byte, ':' ∉ b64encode s := by
  refine byteChunks _ ?_ ?_ ?_ ?_
  · simp [b64encode]
  · intro b hmem
    simp only [b64encode, List.mem_cons, List.not_mem_nil, or_false] at hmem
    rcases hmem with h | h | h | h
    · exact b64char_ne_colon _ h.symm
    · exact b64char_ne_colon _ h.symm
    · exact absurd h (by decide)
    · exact absurd h (by decide)
  · intro b c hmem
    simp only [b64encode, List.mem_cons, List.not_mem_nil, or_false] at hmem
    rcases hmem with h | h | h | h
    · exact b64char_ne_colon _ h.symm
    · exact b64char_ne_colon _ h.symm
    · exact b64char_ne_colon _ h.symm
    · exact absurd h (by decide)
  · intro b c d rest ih hmem
    simp only [b64encode, List.mem_cons] at hmem
    rcases hmem with h | h | h | h | h
    · exact b64char_ne_colon _ h.symm
    · exact b64char_ne_colon _ h.symm
    · exact b64char_ne_colon _ h.symm
    · exact b64char_ne_colon _ h.symm
    · exact ih h

/-- Splitting around a separator absent from both left parts is unique. -/
theorem append_sep_eq {sep : Char} :
    ∀ (xs zs ys ws : List Char), sep ∉ xs → sep ∉ zs →
      xs ++ sep :: ys = zs ++ sep :: ws → xs = zs ∧ ys = ws := by
  intro xs
  induction xs with
  | nil =>
      intro zs ys ws hx hz h
      cases zs with
      | nil => simpa using h
      | cons z zt =>
          simp only [List.nil_append, List.cons_append, List.cons.injEq] at h
          exact absurd (h.1 ▸ List.mem_cons_self z zt) hz
  | cons x xt ih =>
      intro zs ys ws hx hz h
      cases zs with
      | nil =>
          simp only [List.nil_append, List.cons_append, List.cons.injEq] at h
          exact absurd (h.1 ▸ List.mem_cons_self x xt) hx
      | cons z zt =>
          simp only [List.cons_append, List.cons.injEq] at h
          have hrec := ih zt ys ws (fun hm => hx (List.mem_cons_of_mem x hm))
            (fun hm => hz (List.mem_cons_of_mem z hm)) h.2
          exact ⟨by rw [h.1, hrec.1], hrec.2⟩

/-- Equal composite keys come from equal identity pairs. -/
theorem key_inj_aux {a b c d : GoStr} (h : key a b = key c d) : a = c ∧ b = d := by
  unfold key at h
  have hsplit := append_sep_eq (b64encode a) (b64encode c) (b64encode b)
    (b64encode d) (b64encode_no_colon a) (b64encode_no_colon c) h
  exact ⟨b64encode_injective hsplit.1, b64encode_injective hsplit.2⟩

/-- C6: the key encoding is injective: distinct identity pairs, including
pairs where one string is a prefix or substring of the other or contains the
separator character, always receive distinct composite keys. -/
theorem key_injective (a b c d : GoStr) (hne : (a, b) ≠ (c, d)) :
    key a b ≠ key c d := by
  intro h
  have hac := key_inj_aux h
  exact hne (by rw [hac.1, hac.2])

/-- Witness for C6 on a pair built from the separator byte itself, where
naive concatenation would collide. -/
theorem key_injective_witness :
    (([58], []) : GoStr × GoStr) ≠ (([], [58]) : GoStr × GoStr) ∧
    key [58] [] ≠ key [] [58] :=
  ⟨by decide, key_injective [58] [] [] [58] (by decide)⟩

/-! Claims about the JSON export. -/

/-- Entries agreeing outside the secret fields have equal JSON renderings. -/
theorem entryJSON_eq_of_agree {e1 e2 : CacheEntry} (h : agreeExceptSecrets e1 e2) :
    entryJSON e1 = entryJSON e2 := by
  obtain ⟨h1, h2, h3, h4, h5, h6⟩ := h
  unfold entryJSON
  rw [h1, h2, h3, h4, h5, h6]

/-- Pointwise key-preserving relatedness gives equal key lists. -/
theorem forall2_fst_eq {l1 l2 : List (List Char × CacheEntry)}
    (h : List.Forall₂ (fun p q => p.1 = q.1 ∧ agreeExceptSecrets p.2 q.2) l1 l2) :
    l1.map Prod.fst = l2.map Prod.fst := by
  induction h with
  | nil => rfl
  | cons hpq _ ih => simp [hpq.1, ih]

/-- Lookups in pointwise related tables give JSON-equal results. -/
theorem mapGet_forall2 {l1 l2 : List (List Char × CacheEntry)}
    (h : List.Forall₂ (fun p q => p.1 = q.1 ∧ agreeExceptSecrets p.2 q.2) l1 l2)
    (k : List Char) :
    entryJSON ((mapGet k l1).getD zeroEntry) =
      entryJSON ((mapGet k l2).getD zeroEntry) := by
  induction h with
  | nil => rfl
  | cons hpq htail ih =>
      rename_i p q t1 t2
      unfold mapGet
      rw [hpq.1]
      by_cases hk : k = q.1
      · simp [hk, entryJSON_eq_of_agree hpq.2]
      · simp [hk, ih]

/-- C7: the export never depends on secret material: two cache states whose
entry tables agree key-for-key on every field except Ticket and SessionKey
produce identical JSON output. -/
theorem JSON_redacts_secrets (c1 c2 : Cache)
    (h : List.Forall₂ (fun p q => p.1 = q.1 ∧ agreeExceptSecrets p.2 q.2)
      c1.Entries c2.Entries) :
    Cache.JSON c1 = Cache.JSON c2 := by
  unfold Cache.JSON Cache.sortedKeys
  rw [forall2_fst_eq h]
  exact List.map_congr_left (fun k _ => mapGet_forall2 h k)

/-- An entry agreeing with wEntry except in Ticket and SessionKey. -/
def wEntryS : CacheEntry := ⟨wCName, wSPN, wTicket2, 0, 0, 10, 20, wEncKey2⟩

/-- A cache like wCache but with different secret material inside. -/
def wCacheS : Cache := ⟨[(key wCName wSPN, wEntryS)]⟩

/-- Witness for C7: two concrete caches differing only in secrets. -/
theorem JSON_redacts_secrets_witness : Cache.JSON wCache = Cache.JSON wCacheS :=
  JSON_redacts_secrets wCache wCacheS
    (List.Forall₂.cons ⟨rfl, rfl, rfl, rfl, rfl, rfl, rfl⟩ List.Forall₂.nil)

/-- Lookups agree across permuted tables with no duplicate keys. -/
theorem mapGet_perm {l1 l2 : List (List Char × CacheEntry)} (hperm : l1.Perm l2) :
    (l1.map Prod.fst).Nodup → ∀ k, mapGet k l1 = mapGet k l2 := by
  induction hperm with
  | nil => intro _ k; rfl
  | cons x t ih =>
      intro hnd k
      rw [List.map_cons, List.nodup_cons] at hnd
      by_cases hk : k = x.1
      · simp [mapGet, hk]
      · simp [mapGet, hk, ih hnd.2 k]
  | swap x y l =>
      intro hnd k
      rw [List.map_cons, List.map_cons, List.nodup_cons] at hnd
      have hxy : y.1 ≠ x.1 := fun h => hnd.1 (by rw [h]; exact List.mem_cons_self _ _)
      by_cases h1 : k = y.1
      · subst h1
        simp [mapGet, hxy]
      · by_cases h2 : k = x.1
        · subst h2
          simp [mapGet, h1]
        · simp [mapGet, h1, h2]
  | trans h12 h23 ih1 ih2 =>
      intro hnd k
      have hnd2 := ((h12.map Prod.fst).nodup_iff).mp hnd
      exact (ih1 hnd k).trans (ih2 hnd2 k)

/-- C8: the JSON export lists entries in ascending order of their composite
keys, and two caches holding the same entry table, in whatever order the
entries were inserted, produce identical output. -/
theorem JSON_order_deterministic (c1 c2 : Cache)
    (hperm : c1.Entries.Perm c2.Entries)
    (hnd : (c1.Entries.map Prod.fst).Nodup) :
    List.Sorted (fun a b : List Char => a ≤ b) c1.sortedKeys ∧
    Cache.JSON c1 = Cache.JSON c2 := by
  constructor
  · exact List.sorted_insertionSort _ _
  · have hkeys : c1.sortedKeys = c2.sortedKeys := by
      unfold Cache.sortedKeys
      refine List.eq_of_perm_of_sorted ?_ (List.sorted_insertionSort _ _)
        (List.sorted_insertionSort _ _)
      exact (List.perm_insertionSort _ _).trans
        ((hperm.map Prod.fst).trans (List.perm_insertionSort _ _).symm)
    unfold Cache.JSON
    rw [hkeys]
    refine List.map_congr_left (fun k _ => ?_)
    rw [mapGet_perm hperm hnd k]

/-- A second client principal string. -/
def wCNameB : GoStr := [68]

/-- An entry for the second principal. -/
def wEntryB : CacheEntry := ⟨wCNameB, wSPN, wTicket2, 1, 1, 11, 21, wEncKey2⟩

/-- Two entries inserted in one order. -/
def wCacheP1 : Cache := ⟨[(key wCName wSPN, wEntry), (key wCNameB wSPN, wEntryB)]⟩

/-- The same two entries inserted in the opposite order. -/
def wCacheP2 : Cache := ⟨[(key wCNameB wSPN, wEntryB), (key wCName wSPN, wEntry)]⟩

/-- Witness for C8: the two insertion orders export identically. -/
theorem JSON_order_deterministic_witness :
    List.Sorted (fun a b : List Char => a ≤ b) wCacheP1.sortedKeys ∧
    Cache.JSON wCacheP1 = Cache.JSON wCacheP2 :=
  JSON_order_deterministic wCacheP1 wCacheP2 (List.Perm.swap _ _ _) (by decide)

end GoKrb5
